import Mathlib

/-
  Shallow embedding of the smartcrm storage layer (server side).
  Monetary and numeric columns are embedded as exact rationals; the
  JavaScript `toFixed(2)` half-up rounding is `round2`; nullable columns
  are `Option`; `Partial<...>` patches are structures of `Option` fields
  where `none` means "field absent from the patch".
-/

/-- Rounding to 2 decimal places, ties upward. This models both JS
`x.toFixed(2)` (ECMA picks the larger candidate on a tie), used by MemStorage,
and the coercion Postgres applies when DatabaseStorage inserts a value into a
`numeric(10, 2)` column (round half away from zero, which agrees on the
non-negative monetary values involved here). -/
def round2 (x : ℚ) : ℚ :=
  ((⌊x * 100 + 1 / 2⌋ : ℤ) : ℚ) / 100

/-- A rational that is representable with at most two decimal places. -/
def TwoDec (x : ℚ) : Prop :=
  ∃ m : ℤ, x * 100 = (m : ℚ)

/-- The spec's item-amount formula: `quantity * unitPrice * (1 - discount/100)`. -/
def itemAmountRaw (quantity unitPrice discount : ℚ) : ℚ :=
  quantity * unitPrice * (1 - discount / 100)

/-- JS `a || b` on numeric values: `a` when present and non-zero, else `b`
(the number 0 is falsy, as is null/undefined). -/
def jsOr (a : Option ℚ) (b : ℚ) : ℚ :=
  match a with
  | some v => if v = 0 then b else v
  | none => b

namespace DatabaseStorage

/-- db-storage.ts `createInvoiceItem`: `discountAmount = (unitPrice * quantity *
discount) / 100; amount = (unitPrice * quantity) - discountAmount`, sent as
`amount.toString()` to the insert; the `invoice_items.amount` column is
`numeric(10, 2)` (schema.ts:124), so the value is rounded to 2 decimals at
persistence. The returned value is what the stored row holds. -/
def createInvoiceItemAmount (quantity unitPrice : ℚ) (discount : Option ℚ) : ℚ :=
  let d := discount.getD 0
  round2 (unitPrice * quantity - unitPrice * quantity * d / 100)

end DatabaseStorage

namespace MemStorage

/-- storage.ts / invoice-storage.ts `MemStorage.createInvoiceItem`:
`(quantity * unitPrice * (1 - discount / 100)).toFixed(2)`. -/
def createInvoiceItemAmount (quantity unitPrice : ℚ) (discount : Option ℚ) : ℚ :=
  round2 (quantity * unitPrice * (1 - discount.getD 0 / 100))

end MemStorage

/-
  Quota & Usage Ledger: `checkInvoiceQuota` from the route module
  (src/unnamed/part_003).  Timestamps are embedded as integers
  (milliseconds); the nullable `subscriptionExpiresAt` is an `Option`.
-/

/-- The quota-relevant fields of a User row (schema.ts `users`):
`invoiceQuota` and `invoicesUsed` are nullable integer columns,
`subscriptionExpiresAt` a nullable timestamp. -/
structure User where
  planId : String
  invoiceQuota : Option Int
  invoicesUsed : Option Int
  subscriptionExpiresAt : Option Int
deriving DecidableEq

/-- Outcome of `checkInvoiceQuota`: `allowed` models `return true`;
`bundleExpired` the 403 "Your invoice bundle has expired";
`quotaExceeded` the 403 "You have reached your invoice quota for this period". -/
inductive QuotaCheck where
  | allowed : QuotaCheck
  | bundleExpired : QuotaCheck
  | quotaExceeded : QuotaCheck
deriving DecidableEq

/-- `user.invoiceQuota !== -1` under JS semantics: a null column compares
unequal to -1. -/
def quotaNotUnlimited (q : Option Int) : Bool :=
  match q with
  | some v => v != -1
  | none => true

/-- The second check of `checkInvoiceQuota`:
`user.invoiceQuota !== -1 && (user.invoicesUsed ?? 0) >= (user.invoiceQuota ?? 0)`. -/
def quotaExceededCheck (u : User) : Bool :=
  quotaNotUnlimited u.invoiceQuota && u.invoicesUsed.getD 0 ≥ u.invoiceQuota.getD 0

/-- part_003 `checkInvoiceQuota` (user already fetched): first, when the plan
is "per-invoice" and `subscriptionExpiresAt` is non-null, fail with
"bundle expired" if `now > subscriptionExpiresAt`; then fail with
"quota exceeded" if the quota comparison trips; else allow. -/
def checkInvoiceQuota (u : User) (now : Int) : QuotaCheck :=
  match u.planId == "per-invoice", u.subscriptionExpiresAt with
  | true, some e =>
      if e < now then QuotaCheck.bundleExpired
      else if quotaExceededCheck u then QuotaCheck.quotaExceeded
      else QuotaCheck.allowed
  | _, _ =>
      if quotaExceededCheck u then QuotaCheck.quotaExceeded
      else QuotaCheck.allowed

/-
  Total Calculator: the three totals-recomputation routines.
  Each is embedded at the level the method computes on: the fetched
  document row plus the fetched list of its items.
-/

/-- A tax_rates row (schema.ts `taxRates`). -/
structure TaxRate where
  countryCode : String
  rate : ℚ
  isDefault : Bool
deriving DecidableEq

/-- The invariant-relevant fields of an invoices row (schema.ts `invoices`). -/
structure Invoice where
  id : Nat
  userId : Nat
  companyProfileId : Nat
  clientId : Nat
  country : String
  discount : Option ℚ
  taxRate : Option ℚ
  subtotal : ℚ
  tax : ℚ
  total : ℚ
deriving DecidableEq

/-- An invoice_items row (schema.ts `invoiceItems`). -/
structure InvoiceItem where
  id : Nat
  invoiceId : Nat
  quantity : ℚ
  unitPrice : ℚ
  discount : Option ℚ
  amount : ℚ
deriving DecidableEq

/-- A quotations row (schema.ts `quotations`), financial fields only. -/
structure Quotation where
  id : Nat
  userId : Nat
  country : String
  discount : Option ℚ
  taxRate : Option ℚ
  subtotal : ℚ
  tax : ℚ
  total : ℚ
deriving DecidableEq

/-- A quotation_items row (schema.ts `quotationItems`). -/
structure QuotationItem where
  id : Nat
  quotationId : Nat
  quantity : ℚ
  unitPrice : ℚ
  discount : Option ℚ
  amount : ℚ
deriving DecidableEq

/-- `getDefaultTaxRate`: the row with this country code and `isDefault` set
(both storages select it the same way; `find?` models "first matching row"). -/
def getDefaultTaxRate (rates : List TaxRate) (countryCode : String) : Option TaxRate :=
  rates.find? (fun t => t.countryCode == countryCode && t.isDefault)

/-- The numeric rate used by MemStorage:
`taxRate ? parseFloat(taxRate.rate) : 0`. -/
def defaultTaxRateValue (rates : List TaxRate) (countryCode : String) : ℚ :=
  match getDefaultTaxRate rates countryCode with
  | some t => t.rate
  | none => 0

namespace DatabaseStorage

/-- db-storage.ts `recalculateInvoiceTotals`, given the fetched invoice and its
items: `subtotal = reduce (+ amount) 0`; `taxableAmount = subtotal - discount`;
the rate is the invoice's own stored `taxRate` (0 when null). The computation
itself is unrounded and the values are sent via `toString()`, but the
`invoices.subtotal`/`tax`/`total` columns are `numeric(10, 2)`
(schema.ts:94-98), so each value is rounded to 2 decimals at persistence;
the fields below hold what the stored row holds. -/
def recalculateInvoiceTotals (inv : Invoice) (items : List InvoiceItem) : Invoice :=
  let subtotal := items.foldl (fun sum it => sum + it.amount) 0
  let discountAmount := inv.discount.getD 0
  let taxableAmount := subtotal - discountAmount
  let taxRate := inv.taxRate.getD 0
  let taxAmount := taxableAmount * taxRate / 100
  let total := taxableAmount + taxAmount
  { inv with
      subtotal := round2 subtotal
      tax := round2 taxAmount
      total := round2 total }

end DatabaseStorage

namespace MemStorage

/-- storage.ts `MemStorage.recalculateInvoiceTotals`: the rate comes from
`getDefaultTaxRate(invoice.country)` and is written back to the row;
subtotal, tax and total are persisted through `toFixed(2)`. -/
def recalculateInvoiceTotals (rates : List TaxRate) (inv : Invoice)
    (items : List InvoiceItem) : Invoice :=
  let subtotal := items.foldl (fun sum it => sum + it.amount) 0
  let discountValue := inv.discount.getD 0
  let taxRateValue := defaultTaxRateValue rates inv.country
  let taxableAmount := subtotal - discountValue
  let taxAmount := taxableAmount * (taxRateValue / 100)
  let total := taxableAmount + taxAmount
  { inv with
      subtotal := round2 subtotal
      tax := round2 taxAmount
      taxRate := some taxRateValue
      total := round2 total }

end MemStorage

namespace QuotationStorage

/-- The fields of `InsertQuotationItem` that quotation-storage.ts
`createQuotationItem` reads before it faults. -/
structure QuotationItemInsert where
  quotationId : Nat
  quantity : ℚ
  unitPrice : ℚ
  discount : Option ℚ
deriving DecidableEq

/-- quotation-storage.ts `createQuotationItem`: after computing the amount
into a local, line 547 assigns `updatedFields.amount = amount` where
`updatedFields` is undeclared in this method (it exists only inside
`updateQuotationItem`), so the call throws a ReferenceError before any usage
tracking or insert — no quotation item is ever persisted by this path. -/
def createQuotationItem (item : QuotationItemInsert) : Except String QuotationItem :=
  let quantity := item.quantity
  let unitPrice := item.unitPrice
  let discount := item.discount.getD 0
  let _amount := quantity * unitPrice * (1 - discount / 100)
  Except.error "ReferenceError: updatedFields is not defined"

end QuotationStorage

namespace QuotationStorage

/-- quotation-storage.ts `recalculateQuotationTotals`: the document discount is
applied as a percentage (`discountedSubtotal = subtotal * (1 - discount/100)`),
the rate is the quotation's own stored `taxRate` (tax 0 when null), and the
unrounded results are persisted via `toString()`. -/
def recalculateQuotationTotals (qt : Quotation) (items : List QuotationItem) : Quotation :=
  let subtotal := items.foldl (fun sum it => sum + it.amount) 0
  let discount := qt.discount.getD 0
  let discountedSubtotal := subtotal * (1 - discount / 100)
  let tax :=
    match qt.taxRate with
    | some r => discountedSubtotal * (r / 100)
    | none => 0
  let total := discountedSubtotal + tax
  { qt with subtotal := subtotal, tax := tax, total := total }

end QuotationStorage

/-
  Entity Store state and the mutation paths the invariants concern.
-/

/-- A company_profiles row (schema.ts `companyProfiles`), invariant fields. -/
structure CompanyProfile where
  id : Nat
  userId : Nat
  isDefault : Bool
deriving DecidableEq

/-- A clients row (schema.ts `clients`), invariant fields. -/
structure Client where
  id : Nat
  userId : Nat
deriving DecidableEq

/-- The relational store restricted to the tables the deletion guards and the
default-profile invariant read and write. -/
structure Store where
  companyProfiles : List CompanyProfile
  clients : List Client
  invoices : List Invoice
deriving DecidableEq

/-- `InsertCompanyProfile` restricted to invariant fields; `isDefault` is
optional in the insert schema. -/
structure ProfileInsert where
  userId : Nat
  isDefault : Option Bool
deriving DecidableEq

/-- `Partial<InsertCompanyProfile>` restricted to the `isDefault` field
(`none` = field absent from the patch). -/
structure ProfilePatch where
  isDefault : Option Bool
deriving DecidableEq

/-- `Partial<InsertInvoice>` restricted to the recomputation inputs the claim
concerns; the insert schema omits `subtotal` and `total`, so a patch cannot
write them. An outer `none` means the field is absent; the inner `Option` is
the column's nullability. -/
structure InvoicePatch where
  discount : Option (Option ℚ)
  taxRate : Option (Option ℚ)
deriving DecidableEq

/-- `Partial<InsertQuotation>` restricted likewise. -/
structure QuotationPatch where
  discount : Option (Option ℚ)
  taxRate : Option (Option ℚ)
deriving DecidableEq

/-- `Partial<InsertInvoiceItem>` / `Partial<InsertQuotationItem>` restricted
to the three amount inputs (`none` = field absent from the patch). -/
structure ItemPatch where
  quantity : Option ℚ
  unitPrice : Option ℚ
  discount : Option ℚ
deriving DecidableEq

namespace DatabaseStorage

/-- db-storage.ts `createCompanyProfile`: a first profile is forced default;
otherwise the requested flag (`profile.isDefault || false`) is honoured, and
when the new profile is default every existing default of the user is cleared
before the insert. `newId` is the serial id the insert returns. -/
def createCompanyProfile (ps : List CompanyProfile) (newId : Nat)
    (ins : ProfileInsert) : List CompanyProfile :=
  let existingProfiles := ps.filter (fun p => p.userId == ins.userId)
  let isDef := if existingProfiles.isEmpty then true else ins.isDefault.getD false
  let ps1 :=
    if isDef then
      ps.map (fun p =>
        if p.userId == ins.userId && p.isDefault then { p with isDefault := false } else p)
    else ps
  ps1 ++ [{ id := newId, userId := ins.userId, isDefault := isDef }]

/-- db-storage.ts `updateCompanyProfile`: only when the patch sets
`isDefault` to true are the user's other defaults cleared; then the patch is
applied to the row as-is (so a patch with `isDefault: false` just clears the
flag on this row). -/
def updateCompanyProfile (ps : List CompanyProfile) (id : Nat)
    (patch : ProfilePatch) : Except String (List CompanyProfile) :=
  match ps.find? (fun p => p.id == id) with
  | none => Except.error ("Company profile with ID " ++ toString id ++ " not found")
  | some existingProfile =>
      let ps1 :=
        if patch.isDefault = some true then
          ps.map (fun p =>
            if p.userId == existingProfile.userId && p.isDefault && p.id != id then
              { p with isDefault := false }
            else p)
        else ps
      Except.ok (ps1.map (fun p =>
        if p.id == id then { p with isDefault := patch.isDefault.getD p.isDefault } else p))

/-- db-storage.ts `deleteCompanyProfile`: not-found check, then the invoice
reference guard (which throws before any mutation), then — when the deleted
profile is the default — promotion of the first other profile of the user
(the `limit(1)` select), then the delete. -/
def deleteCompanyProfile (s : Store) (id : Nat) : Except String Store :=
  match s.companyProfiles.find? (fun p => p.id == id) with
  | none => Except.error ("Company profile with ID " ++ toString id ++ " not found")
  | some profile =>
      if s.invoices.any (fun inv => inv.companyProfileId == id) then
        Except.error "Cannot delete company profile that is used in invoices"
      else
        let ps1 :=
          if profile.isDefault then
            match (s.companyProfiles.filter
                (fun p => p.userId == profile.userId && p.id != id)).head? with
            | some other =>
                s.companyProfiles.map (fun p =>
                  if p.id == other.id then { p with isDefault := true } else p)
            | none => s.companyProfiles
          else s.companyProfiles
        Except.ok { s with companyProfiles := ps1.filter (fun p => p.id != id) }

/-- db-storage.ts `deleteClient`: not-found check, then the invoice reference
guard (throws before any mutation), then the delete. -/
def deleteClient (s : Store) (id : Nat) : Except String Store :=
  match s.clients.find? (fun c => c.id == id) with
  | none => Except.error ("Client with ID " ++ toString id ++ " not found")
  | some _ =>
      if s.invoices.any (fun inv => inv.clientId == id) then
        Except.error "Cannot delete client that is used in invoices"
      else
        Except.ok { s with clients := s.clients.filter (fun c => c.id != id) }

/-- db-storage.ts `updateInvoice`: the patch is written onto the row;
no totals recomputation happens on this path. -/
def applyInvoicePatch (inv : Invoice) (p : InvoicePatch) : Invoice :=
  { inv with
      discount := p.discount.getD inv.discount
      taxRate := p.taxRate.getD inv.taxRate }

/-- db-storage.ts `updateInvoice` over the invoices table. -/
def updateInvoice (invoices : List Invoice) (id : Nat) (p : InvoicePatch) : List Invoice :=
  invoices.map (fun inv => if inv.id == id then applyInvoicePatch inv p else inv)

end DatabaseStorage

namespace DatabaseStorage2

/-- The second, independently evolved `DatabaseStorage.deleteClient` at the
bottom of quotation-storage.ts: it deletes unconditionally, with no
invoice-reference guard and no not-found check. -/
def deleteClient (s : Store) (id : Nat) : Except String Store :=
  Except.ok { s with clients := s.clients.filter (fun c => c.id != id) }

end DatabaseStorage2

namespace QuotationStorage

/-- quotation-storage.ts `updateQuotation`: the patch is written onto the row
(plus `updatedAt`); no totals recomputation happens on this path. -/
def applyQuotationPatch (qt : Quotation) (p : QuotationPatch) : Quotation :=
  { qt with
      discount := p.discount.getD qt.discount
      taxRate := p.taxRate.getD qt.taxRate }

/-- quotation-storage.ts `updateQuotation` over the quotations table. -/
def updateQuotation (qts : List Quotation) (id : Nat) (p : QuotationPatch) : List Quotation :=
  qts.map (fun qt => if qt.id == id then applyQuotationPatch qt p else qt)

/-- quotation-storage.ts `updateQuotationItem` amount: recomputed only when
one of the three inputs is present in the patch; quantity and unitPrice are
merged with `||` (so 0 falls back to the stored value) while discount is
merged with an explicit `!== undefined` check. The result is persisted
unrounded. -/
def updateQuotationItemAmount (ex : QuotationItem) (p : ItemPatch) : ℚ :=
  if p.quantity.isSome || p.unitPrice.isSome || p.discount.isSome then
    let quantity := jsOr p.quantity ex.quantity
    let unitPrice := jsOr p.unitPrice ex.unitPrice
    let discount :=
      match p.discount with
      | some v => v
      | none => ex.discount.getD 0
    quantity * unitPrice * (1 - discount / 100)
  else ex.amount

end QuotationStorage

namespace MemStorage

/-- storage.ts / invoice-storage.ts `MemStorage.updateInvoiceItem` amount:
recomputed only when one of the three inputs is present in the patch; all
three are merged with `||`, so a 0 in the patch falls back to the stored
value (and a stored null discount to 0). The result is `toFixed(2)`. -/
def updateInvoiceItemAmount (ex : InvoiceItem) (p : ItemPatch) : ℚ :=
  if p.quantity.isSome || p.unitPrice.isSome || p.discount.isSome then
    let quantity := jsOr p.quantity ex.quantity
    let unitPrice := jsOr p.unitPrice ex.unitPrice
    let discount := jsOr p.discount (jsOr ex.discount 0)
    round2 (quantity * unitPrice * (1 - discount / 100))
  else ex.amount

end MemStorage

/-- The spec's default-profile invariant: every user that owns at least one
CompanyProfile has exactly one with `isDefault = true` (stated over the rows:
each row's owner has exactly one default). -/
def oneDefaultPerUser (ps : List CompanyProfile) : Prop :=
  ∀ p ∈ ps, ps.countP (fun q => q.userId == p.userId && q.isDefault) = 1

/-- `round2` is the identity on two-decimal rationals. -/
theorem round2_eq_self_of_twoDec {x : ℚ} (h : TwoDec x) : round2 x = x := by
  obtain ⟨m, hm⟩ := h
  unfold round2
  rw [hm]
  have hfloor : ⌊(m : ℚ) + 1 / 2⌋ = m := by
    rw [add_comm, Int.floor_add_int]
    norm_num
  rw [hfloor]
  field_simp at hm ⊢
  linarith

/-- Adding a two-decimal rational commutes with `round2`. -/
theorem round2_add_twoDec {a : ℚ} (h : TwoDec a) (b : ℚ) :
    round2 (a + b) = a + round2 b := by
  obtain ⟨m, hm⟩ := h
  unfold round2
  have : (a + b) * 100 + 1 / 2 = b * 100 + 1 / 2 + (m : ℚ) := by
    rw [← hm]; ring
  rw [this, Int.floor_add_int]
  push_cast
  field_simp at hm ⊢
  linarith

/-- C3: every invoice item actually persisted by a create path holds
`quantity * unitPrice * (1 - discount/100)` rounded half-up to 2 decimals at
the point of persistence — MemStorage through `toFixed(2)`, DatabaseStorage
through the `numeric(10, 2)` amount column; `createQuotationItem`, however,
throws a ReferenceError on the undeclared `updatedFields` before any insert
(evaluated here at quantity 1, unit price 9.99, discount 5%), so it never
persists an item at all: the claim is right and that code path is a slip. -/
theorem createItemAmount_rounded_at_persistence (q u : ℚ) (d : Option ℚ)
    (ins : QuotationStorage.QuotationItemInsert) :
    DatabaseStorage.createInvoiceItemAmount q u d = round2 (itemAmountRaw q u (d.getD 0))
    ∧ MemStorage.createInvoiceItemAmount q u d = round2 (itemAmountRaw q u (d.getD 0))
    ∧ QuotationStorage.createQuotationItem ins
        = Except.error "ReferenceError: updatedFields is not defined"
    ∧ QuotationStorage.createQuotationItem
        { quotationId := 1, quantity := 1, unitPrice := 999 / 100, discount := some 5 }
        = Except.error "ReferenceError: updatedFields is not defined" := by
  refine ⟨?_, rfl, rfl, rfl⟩
  simp only [DatabaseStorage.createInvoiceItemAmount, itemAmountRaw]
  have h : u * q - u * q * d.getD 0 / 100 = q * u * (1 - d.getD 0 / 100) := by
    ring
  rw [h]

/-- C6: `checkInvoiceQuota` denies exactly when the plan is "per-invoice" and
now is past a non-null expiry (then "bundle expired"), or the quota is not -1
and usage has reached it (then "quota exceeded"); quota -1 with no applicable
expiry always passes. -/
theorem checkInvoiceQuota_spec (u : User) (now : Int) (q used : Int)
    (hq : u.invoiceQuota = some q) (hu : u.invoicesUsed = some used) :
    (checkInvoiceQuota u now ≠ QuotaCheck.allowed ↔
      ((u.planId = "per-invoice" ∧ ∃ e, u.subscriptionExpiresAt = some e ∧ e < now)
        ∨ (q ≠ -1 ∧ q ≤ used)))
    ∧ ((u.planId = "per-invoice" ∧ ∃ e, u.subscriptionExpiresAt = some e ∧ e < now) →
        checkInvoiceQuota u now = QuotaCheck.bundleExpired)
    ∧ ((¬ (u.planId = "per-invoice" ∧ ∃ e, u.subscriptionExpiresAt = some e ∧ e < now)
          ∧ q ≠ -1 ∧ q ≤ used) →
        checkInvoiceQuota u now = QuotaCheck.quotaExceeded)
    ∧ ((q = -1 ∧ ¬ (u.planId = "per-invoice" ∧ ∃ e, u.subscriptionExpiresAt = some e ∧ e < now)) →
        checkInvoiceQuota u now = QuotaCheck.allowed) := by
  obtain ⟨plan, iq, iu, exp⟩ := u
  simp only at hq hu
  subst hq
  subst hu
  by_cases hp : plan = "per-invoice"
  · subst hp
    cases exp with
    | none =>
        simp only [checkInvoiceQuota, quotaExceededCheck, quotaNotUnlimited]
        by_cases hq1 : q = -1 <;>
          by_cases hle : q ≤ used <;>
            simp [hq1, hle, Option.getD]
    | some e =>
        by_cases he : e < now
        · simp only [checkInvoiceQuota, quotaExceededCheck, quotaNotUnlimited,
            beq_self_eq_true, he, if_true]
          simp [he]
        · simp only [checkInvoiceQuota, quotaExceededCheck, quotaNotUnlimited,
            beq_self_eq_true, he, if_false]
          by_cases hq1 : q = -1 <;>
            by_cases hle : q ≤ used <;>
              simp [hq1, hle, he, Option.getD]
  · have hb : (plan == "per-invoice") = false := by
      simp [hp]
    cases exp with
    | none =>
        simp only [checkInvoiceQuota, hb, quotaExceededCheck, quotaNotUnlimited]
        by_cases hq1 : q = -1 <;>
          by_cases hle : q ≤ used <;>
            simp [hq1, hle, hp, Option.getD]
    | some e =>
        simp only [checkInvoiceQuota, hb, quotaExceededCheck, quotaNotUnlimited]
        by_cases hq1 : q = -1 <;>
          by_cases hle : q ≤ used <;>
            simp [hq1, hle, hp, Option.getD]

/-- C6 witness: a "free"-plan user with quota 10 and 10 invoices used is
denied with "quota exceeded" (spec Scenario B). -/
theorem checkInvoiceQuota_spec_witness :
    checkInvoiceQuota { planId := "free", invoiceQuota := some 10,
                        invoicesUsed := some 10, subscriptionExpiresAt := none } 0
      = QuotaCheck.quotaExceeded :=
  (checkInvoiceQuota_spec { planId := "free", invoiceQuota := some 10,
                            invoicesUsed := some 10, subscriptionExpiresAt := none } 0 10 10 rfl rfl).2.2.1
    (by simp)

/-- C9: a "per-invoice" user with a null `subscriptionExpiresAt` never hits the
"bundle expired" branch, whatever the current time; the outcome is decided by
the quota comparison alone. -/
theorem checkInvoiceQuota_null_expiry (u : User) (now : Int)
    (hplan : u.planId = "per-invoice") (hexp : u.subscriptionExpiresAt = none) :
    checkInvoiceQuota u now ≠ QuotaCheck.bundleExpired
    ∧ (checkInvoiceQuota u now = QuotaCheck.quotaExceeded ↔ quotaExceededCheck u = true)
    ∧ (checkInvoiceQuota u now = QuotaCheck.allowed ↔ quotaExceededCheck u = false) := by
  obtain ⟨plan, iq, iu, exp⟩ := u
  simp only at hplan hexp
  subst hplan
  subst hexp
  simp only [checkInvoiceQuota]
  by_cases hqe : quotaExceededCheck
      { planId := "per-invoice", invoiceQuota := iq, invoicesUsed := iu,
        subscriptionExpiresAt := none } = true <;>
    simp [hqe]

/-- C9 witness: a "per-invoice" user with unlimited quota (-1), 1000 invoices
used and a null expiry is allowed at an arbitrarily late time. -/
theorem checkInvoiceQuota_null_expiry_witness :
    checkInvoiceQuota { planId := "per-invoice", invoiceQuota := some (-1),
                        invoicesUsed := some 1000, subscriptionExpiresAt := none } 1000000000000000
      = QuotaCheck.allowed :=
  (checkInvoiceQuota_null_expiry { planId := "per-invoice", invoiceQuota := some (-1),
                                   invoicesUsed := some 1000, subscriptionExpiresAt := none } 1000000000000000
      rfl rfl).2.2.mpr (by decide)

/-- `reduce((sum, item) => sum + item.amount, 0)` is the sum of the amounts. -/
theorem foldl_add_amount_eq_sum {α : Type} (f : α → ℚ) (l : List α) (a : ℚ) :
    l.foldl (fun sum x => sum + f x) a = a + (l.map f).sum := by
  induction l generalizing a with
  | nil => simp
  | cons x xs ih =>
      simp only [List.foldl_cons, List.map_cons, List.sum_cons, ih]
      ring

/-- Two-decimal rationals are closed under addition. -/
theorem TwoDec.add {a b : ℚ} (ha : TwoDec a) (hb : TwoDec b) : TwoDec (a + b) := by
  obtain ⟨m, hm⟩ := ha
  obtain ⟨n, hn⟩ := hb
  exact ⟨m + n, by push_cast; rw [add_mul, hm, hn]⟩

/-- Two-decimal rationals are closed under subtraction. -/
theorem TwoDec.sub {a b : ℚ} (ha : TwoDec a) (hb : TwoDec b) : TwoDec (a - b) := by
  obtain ⟨m, hm⟩ := ha
  obtain ⟨n, hn⟩ := hb
  exact ⟨m - n, by push_cast; rw [sub_mul, hm, hn]⟩

/-- Zero is a two-decimal rational. -/
theorem TwoDec.zero : TwoDec 0 :=
  ⟨0, by norm_num⟩

/-- A sum of two-decimal rationals is two-decimal. -/
theorem TwoDec.list_sum {l : List ℚ} (h : ∀ x ∈ l, TwoDec x) : TwoDec l.sum := by
  induction l with
  | nil => simpa using TwoDec.zero
  | cons x xs ih =>
      simp only [List.sum_cons]
      exact TwoDec.add (h x (List.mem_cons_self x xs))
        (ih fun y hy => h y (List.mem_cons_of_mem x hy))

/-- C2 counterexample: with one item of amount 10.01 and the default 15% rate
for the invoice's country, MemStorage stores tax `round2(1.5015) = 1.50`,
not the exact `(subtotal - discount) * taxRate/100 = 1.5015` the claim states. -/
theorem recalculateInvoiceTotals_mem_tax_rounded :
    (MemStorage.recalculateInvoiceTotals
        [{ countryCode := "US", rate := 15, isDefault := true }]
        { id := 1, userId := 1, companyProfileId := 1, clientId := 1,
          country := "US", discount := some 0, taxRate := none,
          subtotal := 0, tax := 0, total := 0 }
        [{ id := 1, invoiceId := 1, quantity := 1, unitPrice := 1001 / 100,
           discount := none, amount := 1001 / 100 }]).tax = 3 / 2
    ∧ (3 / 2 : ℚ) ≠ (1001 / 100 - 0) * 15 / 100 := by
  constructor
  · norm_num [MemStorage.recalculateInvoiceTotals, defaultTaxRateValue,
      getDefaultTaxRate, round2, List.find?]
  · norm_num

/-- C2 amended: after recomputation (given two-decimal item amounts and
document discount, as the `numeric(10, 2)` columns guarantee), both
implementations store `subtotal = Σ amounts`, subtract the document discount
as an absolute amount, and store `total = (subtotal - discount) + tax` with
the stored tax; the stored tax is `(subtotal - discount) * taxRate/100`
ROUNDED half-up to 2 decimals at persistence — by the `numeric(10, 2)` tax
column in DatabaseStorage and by `toFixed(2)` in MemStorage — not the exact
product the claim states. -/
theorem recalculateInvoiceTotals_spec (inv : Invoice) (items : List InvoiceItem)
    (rates : List TaxRate)
    (h2d : ∀ it ∈ items, TwoDec it.amount)
    (hdisc : TwoDec (inv.discount.getD 0)) :
    ((DatabaseStorage.recalculateInvoiceTotals inv items).subtotal
        = (items.map (fun it => it.amount)).sum
      ∧ (DatabaseStorage.recalculateInvoiceTotals inv items).tax
        = round2 (((items.map (fun it => it.amount)).sum - inv.discount.getD 0)
            * inv.taxRate.getD 0 / 100)
      ∧ (DatabaseStorage.recalculateInvoiceTotals inv items).total
        = ((items.map (fun it => it.amount)).sum - inv.discount.getD 0)
            + (DatabaseStorage.recalculateInvoiceTotals inv items).tax)
    ∧ ((MemStorage.recalculateInvoiceTotals rates inv items).subtotal
        = (items.map (fun it => it.amount)).sum
      ∧ (MemStorage.recalculateInvoiceTotals rates inv items).tax
        = round2 (((items.map (fun it => it.amount)).sum - inv.discount.getD 0)
            * (defaultTaxRateValue rates inv.country / 100))
      ∧ (MemStorage.recalculateInvoiceTotals rates inv items).total
        = ((items.map (fun it => it.amount)).sum - inv.discount.getD 0)
            + (MemStorage.recalculateInvoiceTotals rates inv items).tax) := by
  have hsum : items.foldl (fun sum it => sum + it.amount) 0
      = (items.map (fun it => it.amount)).sum := by
    rw [foldl_add_amount_eq_sum]; ring
  have hsum2d : TwoDec (items.map (fun it => it.amount)).sum := by
    refine TwoDec.list_sum ?_
    intro x hx
    obtain ⟨it, hit, rfl⟩ := List.mem_map.mp hx
    exact h2d it hit
  have htaxable : TwoDec ((items.map (fun it => it.amount)).sum - inv.discount.getD 0) :=
    TwoDec.sub hsum2d hdisc
  refine ⟨⟨?_, ?_, ?_⟩, ?_, ?_, ?_⟩
  · simp only [DatabaseStorage.recalculateInvoiceTotals, hsum]
    exact round2_eq_self_of_twoDec hsum2d
  · simp [DatabaseStorage.recalculateInvoiceTotals, hsum]
  · simp only [DatabaseStorage.recalculateInvoiceTotals, hsum]
    rw [round2_add_twoDec htaxable]
  · simp only [MemStorage.recalculateInvoiceTotals, hsum]
    exact round2_eq_self_of_twoDec hsum2d
  · simp only [MemStorage.recalculateInvoiceTotals, hsum]
  · simp only [MemStorage.recalculateInvoiceTotals, hsum]
    rw [round2_add_twoDec htaxable]

/-- C2 witness (spec Scenario A): item amounts 20.00 and 4.50, discount 0,
default rate 20% give stored tax 4.90 in MemStorage. -/
theorem recalculateInvoiceTotals_spec_witness :
    (MemStorage.recalculateInvoiceTotals
        [{ countryCode := "US", rate := 20, isDefault := true }]
        { id := 1, userId := 1, companyProfileId := 1, clientId := 1,
          country := "US", discount := some 0, taxRate := none,
          subtotal := 0, tax := 0, total := 0 }
        [{ id := 1, invoiceId := 1, quantity := 2, unitPrice := 10,
           discount := some 0, amount := 20 },
         { id := 2, invoiceId := 1, quantity := 1, unitPrice := 5,
           discount := some 10, amount := 9 / 2 }]).tax = 49 / 10 := by
  have h := (recalculateInvoiceTotals_spec
      { id := 1, userId := 1, companyProfileId := 1, clientId := 1,
        country := "US", discount := some 0, taxRate := none,
        subtotal := 0, tax := 0, total := 0 }
      [{ id := 1, invoiceId := 1, quantity := 2, unitPrice := 10,
         discount := some 0, amount := 20 },
       { id := 2, invoiceId := 1, quantity := 1, unitPrice := 5,
         discount := some 10, amount := 9 / 2 }]
      [{ countryCode := "US", rate := 20, isDefault := true }]
      (by
        intro it hit
        simp only [List.mem_cons, List.not_mem_nil, or_false] at hit
        rcases hit with rfl | rfl
        · exact ⟨2000, by norm_num⟩
        · exact ⟨450, by norm_num⟩)
      ⟨0, by norm_num⟩).2.2.1
  rw [h]
  norm_num [round2, defaultTaxRateValue, getDefaultTaxRate, List.find?]

/-- C4 counterexample: the tax-rates table has default rate 5% for "US", but
DatabaseStorage's recomputation taxes a 100.00 subtotal at the invoice's own
stored 20% rate, storing 20 rather than 5. -/
theorem recalculateInvoiceTotals_db_ignores_tax_table :
    defaultTaxRateValue [{ countryCode := "US", rate := 5, isDefault := true }] "US" = 5
    ∧ (DatabaseStorage.recalculateInvoiceTotals
        { id := 1, userId := 1, companyProfileId := 1, clientId := 1,
          country := "US", discount := some 0, taxRate := some 20,
          subtotal := 0, tax := 0, total := 0 }
        [{ id := 1, invoiceId := 1, quantity := 1, unitPrice := 100,
           discount := none, amount := 100 }]).tax = 20
    ∧ (20 : ℚ) ≠ (100 - 0) * 5 / 100 := by
  refine ⟨?_, ?_, by norm_num⟩
  · norm_num [defaultTaxRateValue, getDefaultTaxRate, List.find?]
  · norm_num [DatabaseStorage.recalculateInvoiceTotals, round2]

/-- C4 amended: only MemStorage resolves the applicable rate from the default
TaxRate row of the document's country (0 when none), writing it back to the
row; DatabaseStorage and QuotationStorage tax at the document's own stored
`taxRate` field (0 when null) and never consult the tax-rates table. -/
theorem recalculateTotals_tax_rate_sources (rates : List TaxRate) (inv : Invoice)
    (items : List InvoiceItem) (qt : Quotation) (qitems : List QuotationItem) :
    (MemStorage.recalculateInvoiceTotals rates inv items).taxRate
        = some (defaultTaxRateValue rates inv.country)
    ∧ (MemStorage.recalculateInvoiceTotals rates inv items).tax
        = round2 ((items.foldl (fun sum it => sum + it.amount) 0 - inv.discount.getD 0)
            * (defaultTaxRateValue rates inv.country / 100))
    ∧ (DatabaseStorage.recalculateInvoiceTotals inv items).tax
        = round2 ((items.foldl (fun sum it => sum + it.amount) 0 - inv.discount.getD 0)
            * inv.taxRate.getD 0 / 100)
    ∧ (QuotationStorage.recalculateQuotationTotals qt qitems).tax
        = qitems.foldl (fun sum it => sum + it.amount) 0 * (1 - qt.discount.getD 0 / 100)
            * qt.taxRate.getD 0 / 100 := by
  refine ⟨rfl, rfl, rfl, ?_⟩
  simp only [QuotationStorage.recalculateQuotationTotals]
  cases h : qt.taxRate with
  | none => simp [h]
  | some r => simp [h]; ring

/-- C7 counterexample: a quotation with subtotal 200 and document discount 10
is totalled at `200 * (1 - 10/100) = 180`, not the `200 - 10 = 190` required
by an absolute-amount discount. -/
theorem recalculateQuotationTotals_discount_is_percent :
    (QuotationStorage.recalculateQuotationTotals
        { id := 1, userId := 1, country := "US", discount := some 10,
          taxRate := none, subtotal := 0, tax := 0, total := 0 }
        [{ id := 1, quotationId := 1, quantity := 1, unitPrice := 200,
           discount := none, amount := 200 }]).total = 180
    ∧ (180 : ℚ) ≠ 200 - 10 := by
  refine ⟨?_, by norm_num⟩
  norm_num [QuotationStorage.recalculateQuotationTotals]

/-- C7 amended: quotation totals recomputation stores `subtotal = Σ amounts`
and applies the document discount as a percentage:
`total = subtotal * (1 - discount/100) + tax`, with the tax also computed on
the percentage-discounted subtotal. -/
theorem recalculateQuotationTotals_spec (qt : Quotation) (items : List QuotationItem) :
    (QuotationStorage.recalculateQuotationTotals qt items).subtotal
        = (items.map (fun it => it.amount)).sum
    ∧ (QuotationStorage.recalculateQuotationTotals qt items).total
        = (items.map (fun it => it.amount)).sum * (1 - qt.discount.getD 0 / 100)
            + (QuotationStorage.recalculateQuotationTotals qt items).tax
    ∧ (QuotationStorage.recalculateQuotationTotals qt items).tax
        = (items.map (fun it => it.amount)).sum * (1 - qt.discount.getD 0 / 100)
            * qt.taxRate.getD 0 / 100 := by
  have hsum : items.foldl (fun sum it => sum + it.amount) 0
      = (items.map (fun it => it.amount)).sum := by
    rw [foldl_add_amount_eq_sum]; ring
  refine ⟨?_, ?_, ?_⟩
  · simp [QuotationStorage.recalculateQuotationTotals, hsum]
  · simp only [QuotationStorage.recalculateQuotationTotals, hsum]
  · simp only [QuotationStorage.recalculateQuotationTotals, hsum]
    cases h : qt.taxRate with
    | none => simp [h]
    | some r => simp [h]; ring

/-- C10: a patch putting 0 into quantity or unitPrice (and, for MemStorage,
discount) is ignored by the `||` merge: the amount is recomputed entirely
from the stored values, exactly as if the field had been absent. -/
theorem updateItemAmount_zero_patch_falls_back (ex : InvoiceItem) (qx : QuotationItem) :
    MemStorage.updateInvoiceItemAmount ex { quantity := some 0, unitPrice := none, discount := none }
      = round2 (ex.quantity * ex.unitPrice * (1 - jsOr ex.discount 0 / 100))
    ∧ MemStorage.updateInvoiceItemAmount ex { quantity := none, unitPrice := some 0, discount := none }
      = round2 (ex.quantity * ex.unitPrice * (1 - jsOr ex.discount 0 / 100))
    ∧ MemStorage.updateInvoiceItemAmount ex { quantity := none, unitPrice := none, discount := some 0 }
      = round2 (ex.quantity * ex.unitPrice * (1 - jsOr ex.discount 0 / 100))
    ∧ QuotationStorage.updateQuotationItemAmount qx { quantity := some 0, unitPrice := none, discount := none }
      = qx.quantity * qx.unitPrice * (1 - qx.discount.getD 0 / 100)
    ∧ QuotationStorage.updateQuotationItemAmount qx { quantity := none, unitPrice := some 0, discount := none }
      = qx.quantity * qx.unitPrice * (1 - qx.discount.getD 0 / 100) := by
  refine ⟨?_, ?_, ?_, ?_, ?_⟩ <;>
    simp [MemStorage.updateInvoiceItemAmount, QuotationStorage.updateQuotationItemAmount, jsOr]

/-- C8 counterexample: an invoice stored consistently (one item of 100.00,
discount 0, 10% rate, subtotal 100 / tax 10 / total 110) keeps tax 10 after
`updateInvoice` raises the discount to 20, while recomputing from the current
items and the new discount gives tax 8. -/
theorem updateInvoice_leaves_stale_totals :
    DatabaseStorage.updateInvoice
        [{ id := 1, userId := 1, companyProfileId := 1, clientId := 1, country := "US",
           discount := some 0, taxRate := some 10, subtotal := 100, tax := 10, total := 110 }]
        1 { discount := some (some 20), taxRate := none }
      = [{ id := 1, userId := 1, companyProfileId := 1, clientId := 1, country := "US",
           discount := some 20, taxRate := some 10, subtotal := 100, tax := 10, total := 110 }]
    ∧ (DatabaseStorage.recalculateInvoiceTotals
        { id := 1, userId := 1, companyProfileId := 1, clientId := 1, country := "US",
          discount := some 20, taxRate := some 10, subtotal := 100, tax := 10, total := 110 }
        [{ id := 1, invoiceId := 1, quantity := 1, unitPrice := 100,
           discount := none, amount := 100 }]).tax = 8
    ∧ (10 : ℚ) ≠ 8 := by
  refine ⟨rfl, ?_, by norm_num⟩
  norm_num [DatabaseStorage.recalculateInvoiceTotals, round2]

/-- C8 amended: `updateInvoice` and `updateQuotation` persist the patch
without recomputing: the stored subtotal, tax and total of every row are
unchanged by these paths, so after a discount or taxRate change they keep the
values of the last item mutation rather than recomputed ones. -/
theorem updateDocument_never_rewrites_derived (invs : List Invoice) (qts : List Quotation)
    (id1 id2 : Nat) (p : InvoicePatch) (pq : QuotationPatch) :
    (DatabaseStorage.updateInvoice invs id1 p).map (fun i => (i.subtotal, i.tax, i.total))
      = invs.map (fun i => (i.subtotal, i.tax, i.total))
    ∧ (QuotationStorage.updateQuotation qts id2 pq).map (fun q => (q.subtotal, q.tax, q.total))
      = qts.map (fun q => (q.subtotal, q.tax, q.total)) := by
  constructor
  · simp only [DatabaseStorage.updateInvoice, List.map_map]
    refine List.map_congr_left ?_
    intro inv _
    by_cases h : inv.id = id1 <;>
      simp [h, DatabaseStorage.applyInvoicePatch]
  · simp only [QuotationStorage.updateQuotation, List.map_map]
    refine List.map_congr_left ?_
    intro qt _
    by_cases h : qt.id = id2 <;>
      simp [h, QuotationStorage.applyQuotationPatch]

/-- C5 counterexample: the second `DatabaseStorage.deleteClient` (bottom of
quotation-storage.ts) deletes a client that an invoice still references: no
error is raised and the row is removed. -/
theorem deleteClient_second_implementation_unchecked :
    ([({ id := 1, userId := 1, companyProfileId := 1, clientId := 1, country := "US",
         discount := some 0, taxRate := none, subtotal := 0, tax := 0,
         total := 0 } : Invoice)].any (fun inv => inv.clientId == 1)) = true
    ∧ DatabaseStorage2.deleteClient
        { companyProfiles := [],
          clients := [{ id := 1, userId := 1 }],
          invoices := [{ id := 1, userId := 1, companyProfileId := 1, clientId := 1,
                         country := "US", discount := some 0, taxRate := none,
                         subtotal := 0, tax := 0, total := 0 }] } 1
      = Except.ok
          { companyProfiles := [],
            clients := [],
            invoices := [{ id := 1, userId := 1, companyProfileId := 1, clientId := 1,
                           country := "US", discount := some 0, taxRate := none,
                           subtotal := 0, tax := 0, total := 0 }] } := by
  exact ⟨rfl, rfl⟩

/-- C5 amended: in db-storage.ts, deleting a Client or CompanyProfile that
some invoice references fails with the "used in invoices" domain error before
any mutation (in particular before any default promotion); the second
deleteClient implementation in quotation-storage.ts performs no such check. -/
theorem deleteReferenced_blocked (s : Store) (cid pid : Nat)
    (hc : (s.clients.find? (fun c => c.id == cid)).isSome)
    (hic : s.invoices.any (fun inv => inv.clientId == cid) = true)
    (hp : (s.companyProfiles.find? (fun p => p.id == pid)).isSome)
    (hip : s.invoices.any (fun inv => inv.companyProfileId == pid) = true) :
    DatabaseStorage.deleteClient s cid
        = Except.error "Cannot delete client that is used in invoices"
    ∧ DatabaseStorage.deleteCompanyProfile s pid
        = Except.error "Cannot delete company profile that is used in invoices" := by
  constructor
  · unfold DatabaseStorage.deleteClient
    obtain ⟨c, hfind⟩ := Option.isSome_iff_exists.mp hc
    rw [hfind, hic]
    simp
  · unfold DatabaseStorage.deleteCompanyProfile
    obtain ⟨pr, hfind⟩ := Option.isSome_iff_exists.mp hp
    rw [hfind, hip]
    simp

/-- C5 witness: a concrete store whose single client and default profile are
both referenced by an invoice; both deletes return the domain errors. -/
theorem deleteReferenced_blocked_witness :
    DatabaseStorage.deleteClient
        { companyProfiles := [{ id := 2, userId := 1, isDefault := true }],
          clients := [{ id := 1, userId := 1 }],
          invoices := [{ id := 1, userId := 1, companyProfileId := 2, clientId := 1,
                         country := "US", discount := some 0, taxRate := none,
                         subtotal := 0, tax := 0, total := 0 }] } 1
      = Except.error "Cannot delete client that is used in invoices"
    ∧ DatabaseStorage.deleteCompanyProfile
        { companyProfiles := [{ id := 2, userId := 1, isDefault := true }],
          clients := [{ id := 1, userId := 1 }],
          invoices := [{ id := 1, userId := 1, companyProfileId := 2, clientId := 1,
                         country := "US", discount := some 0, taxRate := none,
                         subtotal := 0, tax := 0, total := 0 }] } 2
      = Except.error "Cannot delete company profile that is used in invoices" :=
  deleteReferenced_blocked
    { companyProfiles := [{ id := 2, userId := 1, isDefault := true }],
      clients := [{ id := 1, userId := 1 }],
      invoices := [{ id := 1, userId := 1, companyProfileId := 2, clientId := 1,
                     country := "US", discount := some 0, taxRate := none,
                     subtotal := 0, tax := 0, total := 0 }] }
    1 2 rfl rfl rfl rfl

/-- `countP` only depends on the predicate's values on the list. -/
theorem countP_congr_mem {α : Type} {l : List α} {p q : α → Bool}
    (h : ∀ a ∈ l, p a = q a) : l.countP p = l.countP q := by
  induction l with
  | nil => rfl
  | cons x xs ih =>
      simp only [List.countP_cons]
      rw [ih fun a ha => h a (List.mem_cons_of_mem x ha),
        h x (List.mem_cons_self x xs)]

/-- Two distinct members satisfying a predicate force a count of at least 2. -/
theorem two_le_countP_of_mem {α : Type} {l : List α} {p : α → Bool} {a b : α}
    (ha : a ∈ l) (hb : b ∈ l) (hab : a ≠ b) (hpa : p a = true) (hpb : p b = true) :
    2 ≤ l.countP p := by
  induction l with
  | nil => simp at ha
  | cons x xs ih =>
      rw [List.countP_cons]
      rcases List.mem_cons.mp ha with rfl | ha'
      · have hb' : b ∈ xs := by
          rcases List.mem_cons.mp hb with rfl | h
          · exact absurd rfl hab
          · exact h
        have h1 : 0 < xs.countP p := List.countP_pos_iff.mpr ⟨b, hb', hpb⟩
        simp only [hpa, if_true]
        omega
      · rcases List.mem_cons.mp hb with rfl | hb'
        · have h1 : 0 < xs.countP p := List.countP_pos_iff.mpr ⟨a, ha', hpa⟩
          simp only [hpb, if_true]
          omega
        · have := ih ha' hb'
          omega

/-- On a duplicate-free list, a predicate satisfied by exactly one member
counts to exactly 1. -/
theorem countP_eq_one_of_unique {α : Type} {l : List α} {p : α → Bool} {a : α}
    (hnd : l.Nodup) (ha : a ∈ l) (hpa : p a = true)
    (huniq : ∀ b ∈ l, p b = true → b = a) : l.countP p = 1 := by
  induction l with
  | nil => simp at ha
  | cons x xs ih =>
      rw [List.countP_cons, List.nodup_cons] at *
      rcases List.mem_cons.mp ha with rfl | ha'
      · have h0 : xs.countP p = 0 := by
          rw [List.countP_eq_zero]
          intro b hb hpb
          exact hnd.1 ((huniq b (List.mem_cons_of_mem _ hb) hpb) ▸ hb)
        simp [hpa, h0]
      · have hax : a ≠ x := fun h => hnd.1 (h ▸ ha')
        have hpx : ¬ p x = true := fun hpx =>
          hax (huniq x (List.mem_cons_self x xs) hpx).symm
        have h1 := ih hnd.2 ha' fun b hb hpb => huniq b (List.mem_cons_of_mem _ hb) hpb
        simp [hpx, h1]

/-- C1 counterexample: a user with one (default) profile; `updateCompanyProfile`
with `isDefault: false` clears the flag without promoting anything, leaving
the user with one profile and zero defaults. -/
theorem updateCompanyProfile_breaks_one_default :
    oneDefaultPerUser [{ id := 1, userId := 7, isDefault := true }]
    ∧ DatabaseStorage.updateCompanyProfile [{ id := 1, userId := 7, isDefault := true }] 1
        { isDefault := some false }
      = Except.ok [{ id := 1, userId := 7, isDefault := false }]
    ∧ ¬ oneDefaultPerUser [{ id := 1, userId := 7, isDefault := false }] := by
  refine ⟨?_, rfl, ?_⟩
  · unfold oneDefaultPerUser
    decide
  · unfold oneDefaultPerUser
    decide

/-- Clearing the defaults of user `u` zeroes that user's default count and
leaves every other user's untouched. -/
theorem countP_default_after_clear (ps : List CompanyProfile) (u uq : Nat) :
    (ps.map (fun p =>
        if p.userId == u && p.isDefault then { p with isDefault := false } else p)).countP
      (fun q => q.userId == uq && q.isDefault)
    = if uq = u then 0 else ps.countP (fun q => q.userId == uq && q.isDefault) := by
  rw [List.countP_map]
  by_cases h : uq = u
  · subst h
    rw [if_pos rfl, List.countP_eq_zero]
    intro p _
    by_cases hpu : p.userId = uq <;> by_cases hpd : p.isDefault = true <;>
      simp [Function.comp, hpu, hpd]
  · rw [if_neg h]
    have huq : ¬ u = uq := fun e => h e.symm
    apply countP_congr_mem
    intro p _
    by_cases hpu : p.userId = u
    · by_cases hpd : p.isDefault = true <;> simp [Function.comp, hpu, hpd, huq]
    · simp [Function.comp, hpu]

/-- Appending a fresh default profile for `u` after clearing `u`'s defaults
keeps the one-default invariant. -/
theorem oneDefault_insert_default (ps : List CompanyProfile) (u newId : Nat)
    (hinv : oneDefaultPerUser ps) :
    oneDefaultPerUser
      ((ps.map (fun p =>
          if p.userId == u && p.isDefault then { p with isDefault := false } else p))
        ++ [{ id := newId, userId := u, isDefault := true }]) := by
  intro p hp
  rw [List.countP_append, countP_default_after_clear]
  rcases List.mem_append.mp hp with hp1 | hp2
  · obtain ⟨q, hq, rfl⟩ := List.mem_map.mp hp1
    have huid :
        ((fun p => if p.userId == u && p.isDefault then { p with isDefault := false } else p)
          q).userId = q.userId := by
      by_cases hc : q.userId == u && q.isDefault <;> simp [hc]
    rw [huid]
    by_cases hqu : q.userId = u
    · simp [hqu]
    · rw [if_neg hqu, hinv q hq]
      have hne : ¬ u = q.userId := fun e => hqu e.symm
      simp [hne]
  · simp only [List.mem_singleton] at hp2
    subst hp2
    simp

/-- Appending a non-default profile for a user who already owns one keeps
the one-default invariant. -/
theorem oneDefault_insert_nondefault (ps : List CompanyProfile) (u newId : Nat)
    (hex : ∃ q ∈ ps, q.userId = u) (hinv : oneDefaultPerUser ps) :
    oneDefaultPerUser (ps ++ [{ id := newId, userId := u, isDefault := false }]) := by
  intro p hp
  rw [List.countP_append]
  have hnewc :
      ([({ id := newId, userId := u, isDefault := false } : CompanyProfile)].countP
        (fun q => q.userId == p.userId && q.isDefault)) = 0 := by
    simp
  rw [hnewc]
  rcases List.mem_append.mp hp with hp1 | hp2
  · rw [hinv p hp1]
  · simp only [List.mem_singleton] at hp2
    subst hp2
    obtain ⟨q, hq, hqu⟩ := hex
    have := hinv q hq
    rw [hqu] at this
    rw [this]

/-- `createCompanyProfile` preserves the one-default invariant: a first
profile is forced default; a default insert clears the other defaults first;
a non-default insert changes no flags. -/
theorem createCompanyProfile_preserves_oneDefault (ps : List CompanyProfile)
    (newId : Nat) (ins : ProfileInsert) (hinv : oneDefaultPerUser ps) :
    oneDefaultPerUser (DatabaseStorage.createCompanyProfile ps newId ins) := by
  simp only [DatabaseStorage.createCompanyProfile]
  by_cases hE : (ps.filter (fun p => p.userId == ins.userId)).isEmpty = true
  · simp only [hE, if_true]
    exact oneDefault_insert_default ps ins.userId newId hinv
  · rw [Bool.not_eq_true] at hE
    simp only [hE, Bool.false_eq_true, if_false]
    cases hflag : ins.isDefault.getD false
    · simp only [Bool.false_eq_true, if_false]
      have hne : ps.filter (fun p => p.userId == ins.userId) ≠ [] := by
        intro hnil
        rw [hnil] at hE
        simp at hE
      obtain ⟨x, hx⟩ := List.exists_mem_of_ne_nil _ hne
      obtain ⟨hxps, hxpred⟩ := List.mem_filter.mp hx
      exact oneDefault_insert_nondefault ps ins.userId newId
        ⟨x, hxps, by simpa using hxpred⟩ hinv
    · simp only [if_true]
      exact oneDefault_insert_default ps ins.userId newId hinv

/-- Deleting a non-default profile keeps the one-default invariant. -/
theorem oneDefault_erase_nondefault (ps : List CompanyProfile) (pid : Nat)
    (hnd : (ps.map (fun p => p.id)).Nodup) (profile : CompanyProfile)
    (hmem : profile ∈ ps) (hpid : profile.id = pid) (hndef : profile.isDefault = false)
    (hinv : oneDefaultPerUser ps) :
    oneDefaultPerUser (ps.filter (fun p => p.id != pid)) := by
  have hinj := List.inj_on_of_nodup_map hnd
  intro p hp
  have hp' : p ∈ ps := List.mem_of_mem_filter hp
  rw [List.countP_filter]
  have hcongr : ps.countP (fun q => (q.userId == p.userId && q.isDefault) && (q.id != pid))
      = ps.countP (fun q => q.userId == p.userId && q.isDefault) := by
    apply countP_congr_mem
    intro q hq
    by_cases hqid : q.id = pid
    · have hqe : q = profile := hinj hq hmem (hqid.trans hpid.symm)
      subst hqe
      simp [hndef]
    · simp [hqid]
  rw [hcongr]
  exact hinv p hp'

/-- Deleting the default profile of a user with no other profiles keeps the
invariant (the user simply disappears from the table). -/
theorem oneDefault_erase_last (ps : List CompanyProfile) (pid : Nat)
    (hnd : (ps.map (fun p => p.id)).Nodup) (profile : CompanyProfile)
    (hmem : profile ∈ ps) (hpid : profile.id = pid)
    (hothers : ps.filter (fun p => p.userId == profile.userId && p.id != pid) = [])
    (hinv : oneDefaultPerUser ps) :
    oneDefaultPerUser (ps.filter (fun p => p.id != pid)) := by
  have hinj := List.inj_on_of_nodup_map hnd
  have hnone := List.filter_eq_nil_iff.mp hothers
  intro p hp
  obtain ⟨hp', hpkeep⟩ := List.mem_filter.mp hp
  have hpuser : p.userId ≠ profile.userId := by
    intro he
    exact hnone p hp' (by simp [he, hpkeep])
  rw [List.countP_filter]
  have hcongr : ps.countP (fun q => (q.userId == p.userId && q.isDefault) && (q.id != pid))
      = ps.countP (fun q => q.userId == p.userId && q.isDefault) := by
    apply countP_congr_mem
    intro q hq
    by_cases hqid : q.id = pid
    · have hqe : q = profile := hinj hq hmem (hqid.trans hpid.symm)
      subst hqe
      have hne : ¬ q.userId = p.userId := fun e => hpuser e.symm
      simp [hne]
    · simp [hqid]
  rw [hcongr]
  exact hinv p hp'

/-- Deleting the default profile after promoting the first other profile of
the same user keeps the one-default invariant. -/
theorem oneDefault_erase_promote (ps : List CompanyProfile) (pid : Nat)
    (hnd : (ps.map (fun p => p.id)).Nodup) (profile : CompanyProfile)
    (hmem : profile ∈ ps) (hpid : profile.id = pid) (hdef : profile.isDefault = true)
    (other : CompanyProfile)
    (hohead : (ps.filter (fun p => p.userId == profile.userId && p.id != pid)).head?
      = some other)
    (hinv : oneDefaultPerUser ps) :
    oneDefaultPerUser
      ((ps.map (fun p => if p.id == other.id then { p with isDefault := true } else p)).filter
        (fun p => p.id != pid)) := by
  have hinj := List.inj_on_of_nodup_map hnd
  have hndps : ps.Nodup := hnd.of_map _
  have homem' : other ∈ ps.filter (fun p => p.userId == profile.userId && p.id != pid) :=
    List.mem_of_mem_head? (by rw [hohead]; rfl)
  obtain ⟨homem, hopred⟩ := List.mem_filter.mp homem'
  simp only [Bool.and_eq_true, bne_iff_ne, beq_iff_eq] at hopred
  obtain ⟨houser, hoid⟩ := hopred
  have hopne : other ≠ profile := fun e => hoid (e ▸ hpid)
  have hondef : other.isDefault = false := by
    by_contra hc
    have hob : other.isDefault = true := by
      revert hc
      cases other.isDefault <;> simp
    have h2 := two_le_countP_of_mem
      (p := fun q => q.userId == profile.userId && q.isDefault) homem hmem hopne
      (by simp [houser, hob]) (by simp [hdef])
    have h1 := hinv profile hmem
    omega
  intro p hp
  obtain ⟨hpmem1, hpkeep⟩ := List.mem_filter.mp hp
  obtain ⟨q0, hq0, hq0e⟩ := List.mem_map.mp hpmem1
  have hpuid : p.userId = q0.userId := by
    rw [← hq0e]
    by_cases hc : q0.id == other.id <;> simp [hc]
  rw [List.countP_filter, List.countP_map]
  by_cases hflag : p.userId = profile.userId
  · apply countP_eq_one_of_unique hndps homem
    · simp [Function.comp, houser, hflag, hoid]
    · intro b hb hpb
      by_cases hbo : b = other
      · exact hbo
      · exfalso
        have hbid : b.id ≠ other.id := fun e => hbo (hinj hb homem e)
        simp only [Function.comp] at hpb
        rw [if_neg (by simpa using hbid)] at hpb
        simp only [Bool.and_eq_true, bne_iff_ne, beq_iff_eq] at hpb
        obtain ⟨⟨hbu, hbd⟩, hbpid⟩ := hpb
        have hbprof : b ≠ profile := fun e => hbpid (e ▸ hpid)
        have h2 := two_le_countP_of_mem
          (p := fun q => q.userId == profile.userId && q.isDefault) hb hmem hbprof
          (by simp [hbu, hflag, hbd]) (by simp [hdef])
        have h1 := hinv profile hmem
        omega
  · have hne : ¬ other.userId = p.userId := by
      rw [houser]
      exact fun e => hflag e.symm
    have hstep : ps.countP
        ((fun x => (x.userId == p.userId && x.isDefault) && x.id != pid) ∘
          (fun p => if p.id == other.id then { p with isDefault := true } else p))
        = ps.countP (fun q => q.userId == p.userId && q.isDefault) := by
      apply countP_congr_mem
      intro q hq
      by_cases hqo : q = other
      · subst hqo
        have hbf : (q.userId == p.userId) = false := by
          simp [hne]
        simp [Function.comp, hbf]
      · have hqid : q.id ≠ other.id := fun e => hqo (hinj hq homem e)
        simp only [Function.comp]
        rw [if_neg (by simpa using hqid)]
        by_cases hqpid : q.id = pid
        · have hqprof : q = profile := hinj hq hmem (hqpid.trans hpid.symm)
          subst hqprof
          have hne2 : ¬ q.userId = p.userId := fun e => hflag e.symm
          simp [hqpid, hne2]
        · simp [hqpid]
    rw [hstep, hpuid]
    exact hinv q0 hq0

/-- C1 amended: on an invariant-satisfying state with duplicate-free profile
ids, `createCompanyProfile` and a successful `deleteCompanyProfile` preserve
"every profile owner has exactly one default"; `updateCompanyProfile` does not
(it can clear the last default, see the counterexample). -/
theorem companyProfile_create_delete_preserve_one_default (s : Store) (newId : Nat)
    (ins : ProfileInsert) (pid : Nat)
    (hinv : oneDefaultPerUser s.companyProfiles)
    (hnodup : (s.companyProfiles.map (fun p => p.id)).Nodup) :
    oneDefaultPerUser (DatabaseStorage.createCompanyProfile s.companyProfiles newId ins)
    ∧ ∀ s', DatabaseStorage.deleteCompanyProfile s pid = Except.ok s' →
        oneDefaultPerUser s'.companyProfiles := by
  refine ⟨createCompanyProfile_preserves_oneDefault _ _ _ hinv, ?_⟩
  intro s' hok
  unfold DatabaseStorage.deleteCompanyProfile at hok
  split at hok
  · exact absurd hok (by simp)
  next profile hfind =>
    have hmem := List.mem_of_find?_eq_some hfind
    have hpid : profile.id = pid := by
      have := List.find?_some hfind
      simpa using this
    split at hok
    · exact absurd hok (by simp)
    · cases hdef : profile.isDefault with
      | false =>
          rw [hdef] at hok
          simp only [Bool.false_eq_true, if_false, Except.ok.injEq] at hok
          subst hok
          exact oneDefault_erase_nondefault s.companyProfiles pid hnodup profile
            hmem hpid hdef hinv
      | true =>
          rw [hdef] at hok
          simp only [if_true] at hok
          cases hhead : (s.companyProfiles.filter
              (fun p => p.userId == profile.userId && p.id != pid)).head? with
          | none =>
              rw [hhead] at hok
              simp only [Except.ok.injEq] at hok
              subst hok
              exact oneDefault_erase_last s.companyProfiles pid hnodup profile
                hmem hpid (List.head?_eq_none_iff.mp hhead) hinv
          | some other =>
              rw [hhead] at hok
              simp only [Except.ok.injEq] at hok
              subst hok
              exact oneDefault_erase_promote s.companyProfiles pid hnodup profile
                hmem hpid hdef other hhead hinv

/-- C1 witness: concrete two-profile user; creating a third non-default
profile keeps exactly one default, and deleting the default promotes the
other profile. -/
theorem companyProfile_create_delete_preserve_one_default_witness :
    oneDefaultPerUser (DatabaseStorage.createCompanyProfile
        [{ id := 1, userId := 7, isDefault := true },
         { id := 2, userId := 7, isDefault := false }] 3
        { userId := 7, isDefault := some false })
    ∧ ∀ s', DatabaseStorage.deleteCompanyProfile
        { companyProfiles := [{ id := 1, userId := 7, isDefault := true },
                              { id := 2, userId := 7, isDefault := false }],
          clients := [], invoices := [] } 1 = Except.ok s' →
        oneDefaultPerUser s'.companyProfiles :=
  companyProfile_create_delete_preserve_one_default
    { companyProfiles := [{ id := 1, userId := 7, isDefault := true },
                          { id := 2, userId := 7, isDefault := false }],
      clients := [], invoices := [] } 3 { userId := 7, isDefault := some false } 1
    (by unfold oneDefaultPerUser; decide) (by decide)
